import Mathlib

/-!
Shallow embedding of the SnifferPy tracer (src/snifferpy/sniffing.py).

Python values that flow through the tracer are modelled by an inductive
type; real numbers sampled from the OS (perf counters, CPU times) are
modelled as rationals; YAML documents read by the configuration loader
are modelled by an inductive of scalars, sequences and nothing else the
claims need.  The profiling callback becomes a pure transition function
on an explicit tracer state; OS samples (clock, CPU, memory, I/O
counters, the introspected raw stack) arrive as event payloads, since
they are inputs the code merely reads.
-/

namespace SnifferPy

/-- Python runtime values, as far as the tracer inspects them:
it only ever stores a value or asks for type(v).__name__. -/
inductive Value where
  | intV (n : ℤ)
  | strV (s : String)
  | floatV (q : ℚ)
  | boolV (b : Bool)
  | noneV
  deriving Repr, DecidableEq

/-- type(v).__name__ for the modelled values. -/
def Value.typeName : Value → String
  | .intV _ => "int"
  | .strV _ => "str"
  | .floatV _ => "float"
  | .boolV _ => "bool"
  | .noneV => "NoneType"

/-- Scalar elements of a YAML sequence.  The tracer only ever compares
sequence elements against strings, so scalars suffice. -/
inductive YAtom where
  | astr (s : String)
  | aint (n : ℤ)
  | abool (b : Bool)
  | anull
  deriving Repr, DecidableEq

/-- Values a YAML settings document can hold at a key (yaml.safe_load
output).  Nested mappings and nested sequences are not needed by any
claim and are omitted. -/
inductive YVal where
  | ystr (s : String)
  | yint (n : ℤ)
  | ybool (b : Bool)
  | ylist (l : List YAtom)
  | ynull
  deriving Repr, DecidableEq

/-- Python truthiness of a modelled YAML value (bool(v)). -/
def YVal.truthy : YVal → Bool
  | .ystr s => s ≠ ""
  | .yint n => n ≠ 0
  | .ybool b => b
  | .ylist l => !l.isEmpty
  | .ynull => false

/-- Whether a YAML value is a string scalar. -/
def YVal.isYStr : YVal → Bool
  | .ystr _ => true
  | _ => false

/-- Whether a YAML value is a list (Python isinstance(v, list)). -/
def YVal.isYList : YVal → Bool
  | .ylist _ => true
  | _ => false

/-- d.get(k): first entry with the key (Python dicts have unique keys,
so first = only). -/
def dictGet {α : Type} (d : List (String × α)) (k : String) : Option α :=
  match d with
  | [] => Option.none
  | (k', v) :: t => if k' = k then some v else dictGet t k

/-- d[k] = v: overwrite in place when the key is present (keeping its
position, as Python dicts do), append otherwise. -/
def dictSet {α : Type} (d : List (String × α)) (k : String) (v : α) :
    List (String × α) :=
  match d with
  | [] => [(k, v)]
  | (k', v') :: t => if k' = k then (k, v) :: t else (k', v') :: dictSet t k v

/-- d.pop(k): remove the entry with the key. -/
def dictPop {α : Type} (d : List (String × α)) (k : String) :
    List (String × α) :=
  match d with
  | [] => []
  | (k', v') :: t => if k' = k then t else (k', v') :: dictPop t k

/-- Python dict merge, the expression in load_config written as a
left fold of single-key assignments: entries of u override entries of d
in place, new keys are appended in u's order. -/
def dictMerge (d u : List (String × YVal)) : List (String × YVal) :=
  u.foldl (fun acc kv => dictSet acc kv.1 kv.2) d

/-- The built-in default ignored_modules list (sniffing.py lines 24-32). -/
def default_ignored : List YAtom :=
  [.astr "logging", .astr "os", .astr "threading", .astr "builtins",
   .astr "snifferpy", .astr "posixpath", .astr "genericpath"]

/-- default_config (sniffing.py lines 15-33). -/
def default_config : List (String × YVal) :=
  [("enable", .ybool true),
   ("log_level", .ystr "INFO"),
   ("log_to_file", .ybool true),
   ("log_filename", .ystr "snifferpy_log.txt"),
   ("entry_value", .ybool false),
   ("return_value", .ybool false),
   ("enable_log", .ybool true),
   ("enable_json", .ybool true),
   ("ignored_modules", .ylist default_ignored)]

/-- What the attempt to read snifferpy.yaml produced.  noFile: the file
does not exist.  raised: anything in the try block raised (unreadable
file, YAML parse error, or a non-mapping document making the dict merge
raise) - the except branch prints and falls through to the defaults.
doc d: yaml.safe_load returned a mapping (some d) or a falsy value such
as None for an empty file (none), which the code turns into the empty
dict via the expression (user_config or ...). -/
inductive ConfigSource where
  | noFile
  | raised
  | doc (d : Option (List (String × YVal)))
  deriving Repr, DecidableEq

/-- Sniffing.load_config (sniffing.py lines 95-146): merge the user
document over the defaults, then replace ignored_modules wholesale by
the default list whenever the merged value is not a list. -/
def load_config (src : ConfigSource) : List (String × YVal) :=
  match src with
  | .noFile => default_config
  | .raised => default_config
  | .doc d =>
      let user := d.getD []
      let cfg := dictMerge default_config user
      match dictGet cfg "ignored_modules" with
      | some (.ylist _) => cfg
      | _ => dictSet cfg "ignored_modules" (.ylist default_ignored)

/-- self.config.get(k, dflt) read as a boolean through Python
truthiness (the code only branches on such reads). -/
def cfgFlag (cfg : List (String × YVal)) (k : String) (dflt : Bool) : Bool :=
  match dictGet cfg k with
  | some v => v.truthy
  | Option.none => dflt

/-- Floor of a rational as an integer (Euclidean division by the
positive denominator). -/
def qfloor (q : ℚ) : ℤ :=
  Int.ediv q.num (q.den : ℤ)

/-- Round a rational to the nearest integer, ties to the even
neighbour: the rounding rule of round() and of string formatting in
the host language, over exact rationals. -/
def roundHalfEven (q : ℚ) : ℤ :=
  if q - (qfloor q : ℚ) < 1 / 2 then qfloor q
  else if 1 / 2 < q - (qfloor q : ℚ) then qfloor q + 1
  else if qfloor q % 2 = 0 then qfloor q else qfloor q + 1

/-- round(x, 6) over exact rationals. -/
def pyRound6 (q : ℚ) : ℚ :=
  (roundHalfEven (q * 1000000) : ℚ) / 1000000

/-- Fixed-point rendering with two decimals, the sign kept apart so a
negative quantity keeps its minus sign even when the rounded magnitude
is zero, as the host formatting does. -/
def fmt2 (q : ℚ) : String :=
  (if q < 0 then "-" else "") ++
    toString ((roundHalfEven (|q| * 100)).toNat / 100) ++ "." ++
    (if (roundHalfEven (|q| * 100)).toNat % 100 < 10 then "0" else "") ++
    toString ((roundHalfEven (|q| * 100)).toNat % 100)

/-- The memory_usage rendering of a byte delta (sniffing.py line 274):
delta divided by 1 MiB, two decimals, MB suffix. -/
def fmtMB (bytes : ℤ) : String :=
  fmt2 ((bytes : ℚ) / (1024 * 1024)) ++ "MB"

/-- Process I/O counters, the two fields the tracer reads. -/
structure IOCounters where
  read_count : ℤ
  write_count : ℤ
  deriving Repr, DecidableEq

/-- What get_args_dict produces: normally a mapping from parameter name
to value (or to a type-name string), but the except branch replaces the
whole mapping by one sentinel string. -/
inductive ArgsVal where
  | argsDict (l : List (String × Value))
  | argsStr (s : String)
  deriving Repr, DecidableEq

/-- The sentinel stored when a call's local variables cannot be read. -/
def unknownArgs : String := "Unknown (global sniffing)"

/-- Sniffing.get_args_dict (sniffing.py lines 361-374).  localVars is
none when inspect.getargvalues / frame.f_locals raises.  The final
type-name rewrite runs outside the try block: applied to the sentinel
string it raises AttributeError, modelled as the error branch. -/
def get_args_dict (localVars : Option (List (String × Value)))
    (entry_value : Bool) : Except String ArgsVal :=
  let args_dict : ArgsVal :=
    match localVars with
    | some l => .argsDict l
    | Option.none => .argsStr unknownArgs
  if entry_value then .ok args_dict
  else
    match args_dict with
    | .argsDict l => .ok (.argsDict (l.map fun kv => (kv.1, .strV kv.2.typeName)))
    | .argsStr _ => .error "AttributeError: str has no attribute items"

/-- Sniffing.get_call_stack (sniffing.py lines 376-390).  rawStack is
what inspect.stack() returns inside get_call_stack, one function name
per frame, the current frame first and the outermost frame last; so
entry 0 is get_call_stack itself, entry 1 is profile_function (the
interception callback runs in its own frame), and the remaining
entries are the program frames, most recent first.  The code drops
only entry 0. -/
def get_call_stack (rawStack : List String) : List String :=
  rawStack.drop 1

/-- The called_by computation (sniffing.py lines 210-212):
call_stack[-2] when the stack has more than 3 entries, call_stack[-1]
otherwise.  The out-of-range cases (which would raise in the source)
are totalized with the empty string; they are unreachable in any run
where the raw stack holds at least the two tracer frames. -/
def called_by_of (cs : List String) : String :=
  if cs.length > 3 then cs.getD (cs.length - 2) ""
  else cs.getD (cs.length - 1) ""

/-- The durable per-call record (the dict built at sniffing.py lines
214-228), field for field. -/
structure CallRecord where
  function : String
  entry_args : ArgsVal
  return_value : Option Value
  execution_time : Option ℚ
  timestamp : String
  cpu_usage : Option ℚ
  memory_usage : Option String
  io_operations : Option ℤ
  call_stack : List String
  called_by : String
  calls_made : List String
  success : Option Bool
  error_message : Option String
  deriving Repr, DecidableEq

/-- The transient per-call context stored in active_calls (the dict
built at sniffing.py lines 233-244), field for field. -/
structure ActiveCallData where
  start_time : ℚ
  args_dict : ArgsVal
  cpu_start : ℚ
  mem_start : ℤ
  io_start : IOCounters
  call_stack : List String
  called_by : String
  calls_made : List String
  success : Option Bool
  error_message : Option String
  deriving Repr, DecidableEq

/-- The OS readings taken during a call event (perf_counter, strftime,
cpu_times, memory_info, io_counters) plus the raw introspected stack;
inputs the code reads, delivered with the event. -/
structure EntrySample where
  start_time : ℚ
  timestamp : String
  cpu : ℚ
  mem : ℤ
  io_snap : IOCounters
  rawStack : List String
  deriving Repr, DecidableEq

/-- The OS readings taken during a return event. -/
structure ExitSample where
  now : ℚ
  cpu : ℚ
  mem : ℤ
  io_snap : IOCounters
  deriving Repr, DecidableEq

/-- One invocation of the profiling callback: the event kind together
with the frame data the code reads (co_name, the module path split on
dots, the readable locals) and the OS samples taken during the event.
For an exception event the code stores str(arg); the event carries
that textual description directly. -/
inductive Event where
  | callEv (fname : String) (module_parts : List String)
      (localVars : Option (List (String × Value))) (env : EntrySample)
  | retEv (fname : String) (arg : Value) (env : ExitSample)
  | excEv (fname : String) (msg : String) (now : ℚ)
  deriving Repr, DecidableEq

/-- The mutable state of a Sniffing instance: config, active_calls,
snifferpy_calls, and whether sys.setprofile currently points at this
instance.  File outputs (save_to_json, logging) do not feed back into
this state and are not modelled. -/
structure SniffState where
  config : List (String × YVal)
  active_calls : List (String × ActiveCallData)
  snifferpy_calls : List CallRecord
  profiling : Bool
  deriving Repr, DecidableEq

/-- The ignored_modules read in is_ignored_module
(self.config.get with default []).  After load_config the stored value
is always a list; a missing key yields the default empty list. -/
def ignoredList (cfg : List (String × YVal)) : List YAtom :=
  match dictGet cfg "ignored_modules" with
  | some (.ylist l) => l
  | _ => []

/-- Sniffing.is_ignored_module (sniffing.py lines 325-349): some
dot-separated segment of the module path equals (as a string) an entry
of the ignored list. -/
def is_ignored_module (cfg : List (String × YVal))
    (module_parts : List String) : Bool :=
  module_parts.any fun part =>
    (ignoredList cfg).any fun v => v = .astr part

/-- The pending CallRecord appended on a call event (sniffing.py lines
214-230). -/
def entryRecord (fname : String) (args_dict : ArgsVal)
    (env : EntrySample) : CallRecord :=
  { function := fname
    entry_args := args_dict
    return_value := Option.none
    execution_time := Option.none
    timestamp := env.timestamp
    cpu_usage := Option.none
    memory_usage := Option.none
    io_operations := Option.none
    call_stack := get_call_stack env.rawStack
    called_by := called_by_of (get_call_stack env.rawStack)
    calls_made := []
    success := Option.none
    error_message := Option.none }

/-- The ActiveCallContext stored on a call event (sniffing.py lines
233-244). -/
def entryCtx (args_dict : ArgsVal) (env : EntrySample) : ActiveCallData :=
  { start_time := env.start_time
    args_dict := args_dict
    cpu_start := env.cpu
    mem_start := env.mem
    io_start := env.io_snap
    call_stack := get_call_stack env.rawStack
    called_by := called_by_of (get_call_stack env.rawStack)
    calls_made := []
    success := Option.none
    error_message := Option.none }

/-- The in-place completion applied to the located record on a normal
return (sniffing.py lines 256-282). -/
def retUpdate (capture_value : Bool) (data : ActiveCallData) (arg : Value)
    (env : ExitSample) (c : CallRecord) : CallRecord :=
  { c with
    return_value := some (if capture_value then arg else .strV arg.typeName)
    execution_time := some (env.now - data.start_time)
    cpu_usage := some (pyRound6 (env.cpu - data.cpu_start))
    memory_usage := some (fmtMB (env.mem - data.mem_start))
    io_operations := some (env.io_snap.read_count - data.io_start.read_count
      + env.io_snap.write_count - data.io_start.write_count)
    success := some true
    error_message := Option.none }

/-- The in-place completion applied to the located record on an
exception (sniffing.py lines 306-316). -/
def excUpdate (data : ActiveCallData) (msg : String) (now : ℚ)
    (c : CallRecord) : CallRecord :=
  { c with
    execution_time := some (now - data.start_time)
    cpu_usage := Option.none
    memory_usage := Option.none
    io_operations := Option.none
    success := some false
    error_message := some msg }

/-- The completion loop (sniffing.py lines 262-283 and 301-317): walk
the log in order and update the first record whose function name
matches and whose execution_time is still null, leaving all others
untouched. -/
def completeFirst (l : List CallRecord) (fname : String)
    (upd : CallRecord → CallRecord) : List CallRecord :=
  match l with
  | [] => []
  | c :: t =>
      if c.function = fname ∧ c.execution_time = Option.none then upd c :: t
      else c :: completeFirst t fname upd

/-- Sniffing.profile_function (sniffing.py lines 174-323) as a pure
transition.  The error branch is the only way the callback itself can
raise: get_args_dict applying the type-name rewrite to the sentinel
string. -/
def profile_function (s : SniffState) (ev : Event) :
    Except String SniffState :=
  if cfgFlag s.config "enable" true = false then .ok s
  else
    match ev with
    | .callEv fname module_parts localVars env =>
        if is_ignored_module s.config module_parts then .ok s
        else
          match get_args_dict localVars (cfgFlag s.config "entry_value" false) with
          | .error e => .error e
          | .ok args_dict =>
              .ok { s with
                snifferpy_calls := s.snifferpy_calls ++ [entryRecord fname args_dict env],
                active_calls := dictSet s.active_calls fname (entryCtx args_dict env) }
    | .retEv fname arg env =>
        match dictGet s.active_calls fname with
        | Option.none => .ok s
        | some data =>
            .ok { s with
              active_calls := dictPop s.active_calls fname,
              snifferpy_calls := completeFirst s.snifferpy_calls fname
                (retUpdate (cfgFlag s.config "return_value" false) data arg env) }
    | .excEv fname msg now =>
        match dictGet s.active_calls fname with
        | Option.none => .ok s
        | some data =>
            .ok { s with
              active_calls := dictPop s.active_calls fname,
              snifferpy_calls := completeFirst s.snifferpy_calls fname
                (excUpdate data msg now) }

/-- A freshly constructed Sniffing instance (sniffing.py lines 37-41):
empty active_calls, empty snifferpy_calls, empty config. -/
def initState : SniffState :=
  { config := [], active_calls := [], snifferpy_calls := [], profiling := false }

/-- Sniffing.start_sniffing (sniffing.py lines 58-76): load the config,
bail out if disabled, otherwise attach the callback.  Neither branch
touches active_calls or snifferpy_calls. -/
def start_sniffing (s : SniffState) (src : ConfigSource) : SniffState :=
  if cfgFlag (load_config src) "enable" true = false then
    { s with config := load_config src }
  else { s with config := load_config src, profiling := true }

/-- Sniffing.stop_sniffing (sniffing.py lines 78-93): detach the
callback unless disabled.  Does not touch active_calls or
snifferpy_calls. -/
def stop_sniffing (s : SniffState) : SniffState :=
  if cfgFlag s.config "enable" true = false then s
  else { s with profiling := false }

/-- One action of embedding code or of the host runtime. -/
inductive Action where
  | startA (src : ConfigSource)
  | stopA
  | evA (e : Event)
  deriving Repr, DecidableEq

/-- Apply one action. -/
def stepAct (s : SniffState) (a : Action) : Except String SniffState :=
  match a with
  | .startA src => .ok (start_sniffing s src)
  | .stopA => .ok (stop_sniffing s)
  | .evA e => profile_function s e

/-- Run a sequence of actions, stopping at the first raise. -/
def runActs (s : SniffState) : List Action → Except String SniffState
  | [] => .ok s
  | a :: t =>
      match stepAct s a with
      | .error m => .error m
      | .ok s' => runActs s' t

/-- The state after one event, the unchanged state if the callback
raised (used only to phrase theorems compactly). -/
def stepOr (s : SniffState) (e : Event) : SniffState :=
  (profile_function s e).toOption.getD s

/-- An all-default record, used only as the fallback of list lookups in
concrete statements. -/
def blankRecord : CallRecord :=
  { function := ""
    entry_args := .argsDict []
    return_value := Option.none
    execution_time := Option.none
    timestamp := ""
    cpu_usage := Option.none
    memory_usage := Option.none
    io_operations := Option.none
    call_stack := []
    called_by := ""
    calls_made := []
    success := Option.none
    error_message := Option.none }

/-- Whether a sequence element is a string scalar. -/
def YAtom.isAStr : YAtom → Bool
  | .astr _ => true
  | _ => false

/-- The specified called_by rule, written from the spec words with the
spec's own storage convention (the stack stored innermost-last, so the
top of the stack is the last element): the second-from-top entry when
the stack has more than 3 entries, the top entry otherwise. -/
def specCalledBy (cs : List String) : String :=
  if 3 < cs.length then cs.dropLast.getLastD "" else cs.getLastD ""

/-- The specified call_stack, written from the spec words: the frames
below the two tracer frames (the introspector's own invocation and the
interception layer's frame are excluded), reversed so the oldest call
comes first and the innermost last. -/
def specCallStack (raw : List String) : List String :=
  (raw.drop 2).reverse

/-- The specified invariant on the resolved configuration, written from
the spec words: ignored_modules is a list whose elements are all
strings. -/
def ignoredModulesIsStringList (src : ConfigSource) : Bool :=
  match dictGet (load_config src) "ignored_modules" with
  | some (.ylist l) => l.all YAtom.isAStr
  | _ => false

/-- Entry-time OS samples with fixed readings, used for concrete runs;
only the raw stack varies between the runs the claims need. -/
def demoEnv (raw : List String) : EntrySample :=
  { start_time := 0, timestamp := "t0", cpu := 0, mem := 0,
    io_snap := { read_count := 0, write_count := 0 }, rawStack := raw }

/-- Exit-time OS samples with fixed readings for concrete runs. -/
def demoExit : ExitSample :=
  { now := 1, cpu := 2, mem := 3145728,
    io_snap := { read_count := 5, write_count := 7 } }

/-- A raw introspected stack for a program call f made at module level:
the introspector's frame, the interception callback's frame, the
entered function, the module frame. -/
def raw4 : List String :=
  ["get_call_stack", "profile_function", "f", "<module>"]

/-- Raw stack at the entry of subtract, called at module level. -/
def rawSubtract : List String :=
  ["get_call_stack", "profile_function", "subtract", "<module>"]

/-- Raw stack at the entry of divide, called by subtract. -/
def rawDivide : List String :=
  ["get_call_stack", "profile_function", "divide", "subtract", "<module>"]

/-- Raw stack at the entry of add, called by subtract. -/
def rawAdd : List String :=
  ["get_call_stack", "profile_function", "add", "subtract", "<module>"]

/-- The spec scenario run: subtract calls divide then add and returns,
under the default configuration. -/
def C1acts : List Action :=
  [.startA .noFile,
   .evA (.callEv "subtract" ["__main__"] (some []) (demoEnv rawSubtract)),
   .evA (.callEv "divide" ["__main__"] (some []) (demoEnv rawDivide)),
   .evA (.retEv "divide" (.floatV 5) demoExit),
   .evA (.callEv "add" ["__main__"] (some []) (demoEnv rawAdd)),
   .evA (.retEv "add" (.intV 10) demoExit),
   .evA (.retEv "subtract" (.intV 5) demoExit)]

/-- The tracer state after the scenario run. -/
def C1state : SniffState :=
  (runActs initState C1acts).toOption.getD initState

/-- Enable, one traced call, disable, enable again. -/
def C9acts : List Action :=
  [.startA .noFile,
   .evA (.callEv "f" ["__main__"] (some []) (demoEnv raw4)),
   .stopA,
   .startA .noFile]

/-- The tracer state after the stop/start run. -/
def C9state : SniffState :=
  (runActs initState C9acts).toOption.getD initState

/-- Enable, one traced call, then the call fails. -/
def C10acts : List Action :=
  [.startA .noFile,
   .evA (.callEv "f" ["__main__"] (some []) (demoEnv raw4)),
   .evA (.excEv "f" "division by zero" 1)]

/-- The tracer state after the failing run. -/
def C10state : SniffState :=
  (runActs initState C10acts).toOption.getD initState

/-- State with one open call: defaults loaded, f entered. -/
def sEntry : SniffState :=
  stepOr (start_sniffing initState ConfigSource.noFile)
    (.callEv "f" ["__main__"] (some []) (demoEnv raw4))

/-- The ActiveCallContext open for f in sEntry. -/
def dataEntry : ActiveCallData :=
  entryCtx (.argsDict []) (demoEnv raw4)

/-- State after loading a settings document that turns entry_value on. -/
def sEntryValueOn : SniffState :=
  start_sniffing initState (.doc (some [("entry_value", .ybool true)]))

/-- Looking up the key just assigned finds the assigned value. -/
theorem dictGet_dictSet_self {α : Type} (d : List (String × α)) (k : String)
    (v : α) : dictGet (dictSet d k v) k = some v := by
  induction d with
  | nil => simp [dictSet, dictGet]
  | cons p t ih =>
    obtain ⟨k', v'⟩ := p
    by_cases h : k' = k
    · simp [dictSet, h, dictGet]
    · simp [dictSet, h, dictGet, ih]

/-- Assigning one key leaves lookups of other keys unchanged. -/
theorem dictGet_dictSet_ne {α : Type} (d : List (String × α)) (k' k : String)
    (v : α) (h : k' ≠ k) : dictGet (dictSet d k' v) k = dictGet d k := by
  induction d with
  | nil => simp [dictSet, dictGet, h]
  | cons p t ih =>
    obtain ⟨k0, v0⟩ := p
    by_cases h0 : k0 = k'
    · simp [dictSet, h0, dictGet, h]
    · by_cases h1 : k0 = k
      · simp [dictSet, h0, dictGet, h1, Ne.symm h]
      · simp [dictSet, h0, dictGet, h1, ih]

/-- Merging a dict none of whose keys is k leaves lookups of k alone. -/
theorem dictGet_dictMerge_notMem (d u : List (String × YVal)) (k : String)
    (h : k ∉ u.map Prod.fst) : dictGet (dictMerge d u) k = dictGet d k := by
  induction u generalizing d with
  | nil => rfl
  | cons p t ih =>
    obtain ⟨k1, v1⟩ := p
    simp only [List.map_cons, List.mem_cons, not_or] at h
    have hstep : dictMerge d ((k1, v1) :: t) = dictMerge (dictSet d k1 v1) t := rfl
    rw [hstep, ih _ h.2, dictGet_dictSet_ne _ _ _ _ (fun he => h.1 he.symm)]

/-- A key present in the overriding dict keeps its value through the
merge (keys of a parsed mapping are unique). -/
theorem dictGet_dictMerge_of_get (d u : List (String × YVal)) (k : String)
    (v : YVal) (hnd : (u.map Prod.fst).Nodup) (hget : dictGet u k = some v) :
    dictGet (dictMerge d u) k = some v := by
  induction u generalizing d with
  | nil => simp [dictGet] at hget
  | cons p t ih =>
    obtain ⟨k1, v1⟩ := p
    have hstep : dictMerge d ((k1, v1) :: t) = dictMerge (dictSet d k1 v1) t := rfl
    simp only [List.map_cons, List.nodup_cons] at hnd
    by_cases h : k1 = k
    · subst h
      have hv : v1 = v := by simpa [dictGet] using hget
      rw [hstep, dictGet_dictMerge_notMem _ _ _ hnd.1, dictGet_dictSet_self, hv]
    · simp only [dictGet, if_neg h] at hget
      rw [hstep]
      exact ih _ hnd.2 hget

/-- Membership after a dict assignment. -/
theorem mem_dictSet {α : Type} {p : String × α} {d : List (String × α)}
    {k : String} {v : α} (h : p ∈ dictSet d k v) : p = (k, v) ∨ p ∈ d := by
  induction d with
  | nil =>
    simp only [dictSet, List.mem_singleton] at h
    exact Or.inl h
  | cons q t ih =>
    obtain ⟨k', v'⟩ := q
    by_cases hk : k' = k
    · simp only [dictSet, if_pos hk] at h
      rcases List.mem_cons.mp h with h | h
      · exact Or.inl h
      · exact Or.inr (List.mem_cons_of_mem _ h)
    · simp only [dictSet, if_neg hk] at h
      rcases List.mem_cons.mp h with h | h
      · exact Or.inr (h ▸ List.mem_cons_self _ _)
      · rcases ih h with h | h
        · exact Or.inl h
        · exact Or.inr (List.mem_cons_of_mem _ h)

/-- Removal only removes: members after a pop were members before. -/
theorem mem_dictPop {α : Type} {p : String × α} {d : List (String × α)}
    {k : String} (h : p ∈ dictPop d k) : p ∈ d := by
  induction d with
  | nil => simp [dictPop] at h
  | cons q t ih =>
    obtain ⟨k', v'⟩ := q
    by_cases hk : k' = k
    · simp only [dictPop, if_pos hk] at h
      exact List.mem_cons_of_mem _ h
    · simp only [dictPop, if_neg hk] at h
      rcases List.mem_cons.mp h with h | h
      · exact h ▸ List.mem_cons_self _ _
      · exact List.mem_cons_of_mem _ (ih h)

/-- The completion loop either finds no pending record with the name
and leaves the log unchanged, or splits the log around the first such
record and updates exactly it. -/
theorem completeFirst_cases (l : List CallRecord) (f : String)
    (upd : CallRecord → CallRecord) :
    ((∀ c ∈ l, ¬(c.function = f ∧ c.execution_time = Option.none)) ∧
      completeFirst l f upd = l) ∨
    (∃ l₁ c l₂, l = l₁ ++ c :: l₂ ∧
      (∀ c' ∈ l₁, ¬(c'.function = f ∧ c'.execution_time = Option.none)) ∧
      c.function = f ∧ c.execution_time = Option.none ∧
      completeFirst l f upd = l₁ ++ upd c :: l₂) := by
  induction l with
  | nil => exact Or.inl ⟨by simp, rfl⟩
  | cons c t ih =>
    by_cases h : c.function = f ∧ c.execution_time = Option.none
    · refine Or.inr ⟨[], c, t, by simp, by simp, h.1, h.2, ?_⟩
      simp [completeFirst, h]
    · rcases ih with ⟨hall, heq⟩ | ⟨l₁, c₀, l₂, hsplit, hnone, hf, hexec, hres⟩
      · refine Or.inl ⟨?_, by simp [completeFirst, h, heq]⟩
        intro c' hc'
        rcases List.mem_cons.mp hc' with rfl | hc'
        · exact h
        · exact hall c' hc'
      · refine Or.inr ⟨c :: l₁, c₀, l₂, by simp [hsplit], ?_, hf, hexec, ?_⟩
        · intro c' hc'
          rcases List.mem_cons.mp hc' with rfl | hc'
          · exact h
          · exact hnone c' hc'
        · simp [completeFirst, h, hres]

/-- Every record in the completed log is an old record or the update
of an old record that was pending with the matching name. -/
theorem mem_completeFirst {l : List CallRecord} {f : String}
    {upd : CallRecord → CallRecord} {r : CallRecord}
    (h : r ∈ completeFirst l f upd) :
    r ∈ l ∨ ∃ c, c ∈ l ∧ c.function = f ∧ c.execution_time = Option.none ∧
      r = upd c := by
  induction l with
  | nil => simp [completeFirst] at h
  | cons c t ih =>
    by_cases hc : c.function = f ∧ c.execution_time = Option.none
    · simp only [completeFirst, if_pos hc] at h
      rcases List.mem_cons.mp h with rfl | h
      · exact Or.inr ⟨c, List.mem_cons_self _ _, hc.1, hc.2, rfl⟩
      · exact Or.inl (List.mem_cons_of_mem _ h)
    · simp only [completeFirst, if_neg hc] at h
      rcases List.mem_cons.mp h with rfl | h
      · exact Or.inl (List.mem_cons_self _ _)
      · rcases ih h with h | ⟨c₀, hc₀, hf, hexec, hr⟩
        · exact Or.inl (List.mem_cons_of_mem _ h)
        · exact Or.inr ⟨c₀, List.mem_cons_of_mem _ hc₀, hf, hexec, hr⟩

@[simp] theorem retUpdate_calls_made (rv : Bool) (data : ActiveCallData)
    (arg : Value) (env : ExitSample) (c : CallRecord) :
    (retUpdate rv data arg env c).calls_made = c.calls_made := rfl

@[simp] theorem excUpdate_calls_made (data : ActiveCallData) (msg : String)
    (now : ℚ) (c : CallRecord) :
    (excUpdate data msg now c).calls_made = c.calls_made := rfl

@[simp] theorem entryRecord_calls_made (fname : String) (a : ArgsVal)
    (env : EntrySample) : (entryRecord fname a env).calls_made = [] := rfl

@[simp] theorem entryCtx_calls_made (a : ArgsVal) (env : EntrySample) :
    (entryCtx a env).calls_made = [] := rfl

/-- start_sniffing never touches the active-call table. -/
theorem start_sniffing_active (s : SniffState) (src : ConfigSource) :
    (start_sniffing s src).active_calls = s.active_calls := by
  unfold start_sniffing
  split <;> rfl

/-- start_sniffing never touches the call log. -/
theorem start_sniffing_calls (s : SniffState) (src : ConfigSource) :
    (start_sniffing s src).snifferpy_calls = s.snifferpy_calls := by
  unfold start_sniffing
  split <;> rfl

/-- stop_sniffing never touches the active-call table. -/
theorem stop_sniffing_active (s : SniffState) :
    (stop_sniffing s).active_calls = s.active_calls := by
  unfold stop_sniffing
  split <;> rfl

/-- stop_sniffing never touches the call log. -/
theorem stop_sniffing_calls (s : SniffState) :
    (stop_sniffing s).snifferpy_calls = s.snifferpy_calls := by
  unfold stop_sniffing
  split <;> rfl

/-- A non-filtered call event with readable configuration appends one
pending record and stores one context. -/
theorem entry_step (s : SniffState) (fname : String) (parts : List String)
    (lv : Option (List (String × Value))) (env : EntrySample) (a : ArgsVal)
    (hen : cfgFlag s.config "enable" true = true)
    (hig : is_ignored_module s.config parts = false)
    (ha : get_args_dict lv (cfgFlag s.config "entry_value" false) = .ok a) :
    profile_function s (.callEv fname parts lv env) =
      .ok { s with
        snifferpy_calls := s.snifferpy_calls ++ [entryRecord fname a env],
        active_calls := dictSet s.active_calls fname (entryCtx a env) } := by
  unfold profile_function
  dsimp only
  rw [hen, hig, ha]
  simp

/-- A return event with no open context changes nothing. -/
theorem ret_noop (s : SniffState) (fname : String) (arg : Value)
    (env : ExitSample) (hget : dictGet s.active_calls fname = Option.none) :
    profile_function s (.retEv fname arg env) = .ok s := by
  unfold profile_function
  dsimp only
  rw [hget]
  split <;> rfl

/-- A return event with an open context pops it and completes the
first pending record with the name. -/
theorem ret_step (s : SniffState) (fname : String) (arg : Value)
    (env : ExitSample) (data : ActiveCallData)
    (hen : cfgFlag s.config "enable" true = true)
    (hget : dictGet s.active_calls fname = some data) :
    profile_function s (.retEv fname arg env) =
      .ok { s with
        active_calls := dictPop s.active_calls fname,
        snifferpy_calls := completeFirst s.snifferpy_calls fname
          (retUpdate (cfgFlag s.config "return_value" false) data arg env) } := by
  unfold profile_function
  dsimp only
  rw [hen, hget]
  simp

/-- An exception event with no open context changes nothing. -/
theorem exc_noop (s : SniffState) (fname msg : String) (now : ℚ)
    (hget : dictGet s.active_calls fname = Option.none) :
    profile_function s (.excEv fname msg now) = .ok s := by
  unfold profile_function
  dsimp only
  rw [hget]
  split <;> rfl

/-- An exception event with an open context pops it and completes the
first pending record with the name. -/
theorem exc_step (s : SniffState) (fname msg : String) (now : ℚ)
    (data : ActiveCallData)
    (hen : cfgFlag s.config "enable" true = true)
    (hget : dictGet s.active_calls fname = some data) :
    profile_function s (.excEv fname msg now) =
      .ok { s with
        active_calls := dictPop s.active_calls fname,
        snifferpy_calls := completeFirst s.snifferpy_calls fname
          (excUpdate data msg now) } := by
  unfold profile_function
  dsimp only
  rw [hen, hget]
  simp

/-- With tracing disabled in the loaded config every event is ignored. -/
theorem disabled_noop (s : SniffState) (e : Event)
    (hen : cfgFlag s.config "enable" true = false) :
    profile_function s e = .ok s := by
  unfold profile_function
  rw [if_pos hen]

/-- A call event from an ignored module changes nothing. -/
theorem entry_ignored (s : SniffState) (fname : String) (parts : List String)
    (lv : Option (List (String × Value))) (env : EntrySample)
    (hig : is_ignored_module s.config parts = true) :
    profile_function s (.callEv fname parts lv env) = .ok s := by
  unfold profile_function
  dsimp only
  rw [hig]
  split <;> rfl

/-- A call event whose argument capture raises makes the callback
itself raise. -/
theorem entry_raises (s : SniffState) (fname : String) (parts : List String)
    (lv : Option (List (String × Value))) (env : EntrySample) (e0 : String)
    (hen : cfgFlag s.config "enable" true = true)
    (hig : is_ignored_module s.config parts = false)
    (ha : get_args_dict lv (cfgFlag s.config "entry_value" false) = .error e0) :
    profile_function s (.callEv fname parts lv env) = .error e0 := by
  unfold profile_function
  dsimp only
  rw [hen, hig, ha]
  simp

/-- The code's negative-index selection agrees everywhere with the
spec-worded top / second-from-top selection (top = last under the
innermost-last convention). -/
theorem called_by_of_eq_spec (cs : List String) :
    called_by_of cs = specCalledBy cs := by
  unfold called_by_of specCalledBy
  by_cases h : 3 < cs.length
  · rw [if_pos h, if_pos h, List.getLastD_eq_getLast?, List.getLast?_eq_getElem?,
      List.length_dropLast, List.getElem?_dropLast,
      if_pos (show cs.length - 1 - 1 < cs.length - 1 by omega),
      List.getD_eq_getElem?_getD,
      (by omega : cs.length - 1 - 1 = cs.length - 2)]
  · rw [if_neg h, if_neg h, List.getLastD_eq_getLast?, List.getLast?_eq_getElem?,
      List.getD_eq_getElem?_getD]

/-- Any property preserved by every action step holds after any run. -/
theorem runActs_preserves (P : SniffState → Prop)
    (hstep : ∀ s a s', P s → stepAct s a = .ok s' → P s') :
    ∀ (acts : List Action) (s s' : SniffState), P s →
      runActs s acts = .ok s' → P s' := by
  intro acts
  induction acts with
  | nil =>
    intro s s' hP h
    unfold runActs at h
    exact (Except.ok.inj h) ▸ hP
  | cons a t ih =>
    intro s s' hP h
    unfold runActs at h
    cases hs : stepAct s a with
    | error m =>
      rw [hs] at h
      exact Except.noConfusion h
    | ok s1 =>
      rw [hs] at h
      exact ih s1 s' (hstep s a s1 hP hs) h

/-- Any per-record property that holds of fresh pending records and is
preserved by both completions (for the pending record they are applied
to) is preserved by every action step. -/
theorem stepAct_records_pres (Q : CallRecord → Prop)
    (hentry : ∀ fname a env, Q (entryRecord fname a env))
    (hret : ∀ rv data arg env c, Q c → c.execution_time = Option.none →
      Q (retUpdate rv data arg env c))
    (hexc : ∀ data msg now c, Q c → c.execution_time = Option.none →
      Q (excUpdate data msg now c))
    (s : SniffState) (a : Action) (s' : SniffState)
    (hP : ∀ r ∈ s.snifferpy_calls, Q r) (h : stepAct s a = .ok s') :
    ∀ r ∈ s'.snifferpy_calls, Q r := by
  cases a with
  | startA src =>
    unfold stepAct at h
    dsimp only at h
    obtain rfl := Except.ok.inj h
    intro r hr
    rw [start_sniffing_calls] at hr
    exact hP r hr
  | stopA =>
    unfold stepAct at h
    dsimp only at h
    obtain rfl := Except.ok.inj h
    intro r hr
    rw [stop_sniffing_calls] at hr
    exact hP r hr
  | evA e =>
    unfold stepAct at h
    dsimp only at h
    by_cases hen : cfgFlag s.config "enable" true = false
    · rw [disabled_noop s e hen] at h
      exact (Except.ok.inj h) ▸ hP
    · have hen' : cfgFlag s.config "enable" true = true := by
        revert hen
        cases cfgFlag s.config "enable" true <;> simp
      cases e with
      | callEv fname parts lv env =>
        by_cases hig : is_ignored_module s.config parts = true
        · rw [entry_ignored s fname parts lv env hig] at h
          exact (Except.ok.inj h) ▸ hP
        · have hig' : is_ignored_module s.config parts = false := by
            revert hig
            cases is_ignored_module s.config parts <;> simp
          cases hga : get_args_dict lv (cfgFlag s.config "entry_value" false) with
          | error e0 =>
            rw [entry_raises s fname parts lv env e0 hen' hig' hga] at h
            exact Except.noConfusion h
          | ok a0 =>
            rw [entry_step s fname parts lv env a0 hen' hig' hga] at h
            obtain rfl := Except.ok.inj h
            intro r hr
            rcases List.mem_append.mp hr with hr | hr
            · exact hP r hr
            · rw [List.mem_singleton] at hr
              exact hr ▸ hentry fname a0 env
      | retEv fname arg env =>
        cases hget : dictGet s.active_calls fname with
        | none =>
          rw [ret_noop s fname arg env hget] at h
          exact (Except.ok.inj h) ▸ hP
        | some data =>
          rw [ret_step s fname arg env data hen' hget] at h
          obtain rfl := Except.ok.inj h
          intro r hr
          rcases mem_completeFirst hr with hr | ⟨c, hc, _, hexec0, rfl⟩
          · exact hP r hr
          · exact hret _ _ _ _ _ (hP c hc) hexec0
      | excEv fname msg now =>
        cases hget : dictGet s.active_calls fname with
        | none =>
          rw [exc_noop s fname msg now hget] at h
          exact (Except.ok.inj h) ▸ hP
        | some data =>
          rw [exc_step s fname msg now data hen' hget] at h
          obtain rfl := Except.ok.inj h
          intro r hr
          rcases mem_completeFirst hr with hr | ⟨c, hc, _, hexec0, rfl⟩
          · exact hP r hr
          · exact hexc _ _ _ _ (hP c hc) hexec0

/-- Any per-context property that holds of fresh contexts is preserved
by every action step (contexts are only ever created whole or removed). -/
theorem stepAct_active_pres (R : ActiveCallData → Prop)
    (hentry : ∀ a env, R (entryCtx a env))
    (s : SniffState) (a : Action) (s' : SniffState)
    (hA : ∀ p ∈ s.active_calls, R (Prod.snd p)) (h : stepAct s a = .ok s') :
    ∀ p ∈ s'.active_calls, R (Prod.snd p) := by
  cases a with
  | startA src =>
    unfold stepAct at h
    dsimp only at h
    obtain rfl := Except.ok.inj h
    intro p hp
    rw [start_sniffing_active] at hp
    exact hA p hp
  | stopA =>
    unfold stepAct at h
    dsimp only at h
    obtain rfl := Except.ok.inj h
    intro p hp
    rw [stop_sniffing_active] at hp
    exact hA p hp
  | evA e =>
    unfold stepAct at h
    dsimp only at h
    by_cases hen : cfgFlag s.config "enable" true = false
    · rw [disabled_noop s e hen] at h
      exact (Except.ok.inj h) ▸ hA
    · have hen' : cfgFlag s.config "enable" true = true := by
        revert hen
        cases cfgFlag s.config "enable" true <;> simp
      cases e with
      | callEv fname parts lv env =>
        by_cases hig : is_ignored_module s.config parts = true
        · rw [entry_ignored s fname parts lv env hig] at h
          exact (Except.ok.inj h) ▸ hA
        · have hig' : is_ignored_module s.config parts = false := by
            revert hig
            cases is_ignored_module s.config parts <;> simp
          cases hga : get_args_dict lv (cfgFlag s.config "entry_value" false) with
          | error e0 =>
            rw [entry_raises s fname parts lv env e0 hen' hig' hga] at h
            exact Except.noConfusion h
          | ok a0 =>
            rw [entry_step s fname parts lv env a0 hen' hig' hga] at h
            obtain rfl := Except.ok.inj h
            intro p hp
            rcases mem_dictSet hp with rfl | hp
            · exact hentry a0 env
            · exact hA p hp
      | retEv fname arg env =>
        cases hget : dictGet s.active_calls fname with
        | none =>
          rw [ret_noop s fname arg env hget] at h
          exact (Except.ok.inj h) ▸ hA
        | some data =>
          rw [ret_step s fname arg env data hen' hget] at h
          obtain rfl := Except.ok.inj h
          intro p hp
          exact hA p (mem_dictPop hp)
      | excEv fname msg now =>
        cases hget : dictGet s.active_calls fname with
        | none =>
          rw [exc_noop s fname msg now hget] at h
          exact (Except.ok.inj h) ▸ hA
        | some data =>
          rw [exc_step s fname msg now data hen' hget] at h
          obtain rfl := Except.ok.inj h
          intro p hp
          exact hA p (mem_dictPop hp)

/-- C5 counterexample: the settings document with ignored_modules: [7]
supplies a YAML list that is not a list of strings; load_config keeps
it unchanged, so the resolved ignored_modules is not a list of
strings, refuting the claimed invariant at this concrete document. -/
theorem C5_ignored_modules_counterexample :
    dictGet (load_config (.doc (some [("ignored_modules", .ylist [.aint 7])])))
        "ignored_modules" = some (.ylist [.aint 7]) ∧
    ignoredModulesIsStringList
        (.doc (some [("ignored_modules", .ylist [.aint 7])])) = false := by
  decide

/-- C5 (amended): after load_config the resolved ignored_modules is
always a YAML list, though not necessarily a list of strings; when the
document supplies a value that is not a list at all, it is replaced
wholesale by the built-in default list. -/
theorem C5_ignored_modules_amended :
    (∀ src : ConfigSource, ∃ l : List YAtom,
        dictGet (load_config src) "ignored_modules" = some (.ylist l)) ∧
    (∀ (d : List (String × YVal)) (v : YVal),
        (d.map Prod.fst).Nodup →
        dictGet d "ignored_modules" = some v →
        v.isYList = false →
        dictGet (load_config (.doc (some d))) "ignored_modules" =
          some (.ylist default_ignored)) := by
  constructor
  · intro src
    match src with
    | .noFile => exact ⟨default_ignored, by decide⟩
    | .raised => exact ⟨default_ignored, by decide⟩
    | .doc d =>
      unfold load_config
      dsimp only
      cases hv : dictGet (dictMerge default_config (d.getD []))
          "ignored_modules" with
      | none =>
        exact ⟨default_ignored, dictGet_dictSet_self _ _ _⟩
      | some v =>
        cases v with
        | ystr s0 => exact ⟨default_ignored, dictGet_dictSet_self _ _ _⟩
        | yint n0 => exact ⟨default_ignored, dictGet_dictSet_self _ _ _⟩
        | ybool b0 => exact ⟨default_ignored, dictGet_dictSet_self _ _ _⟩
        | ylist l0 => exact ⟨l0, hv⟩
        | ynull => exact ⟨default_ignored, dictGet_dictSet_self _ _ _⟩
  · intro d v hnd hget hne
    have hm : dictGet (dictMerge default_config d) "ignored_modules" = some v :=
      dictGet_dictMerge_of_get _ _ _ _ hnd hget
    unfold load_config
    dsimp only [Option.getD]
    rw [hm]
    cases v with
    | ystr s0 => exact dictGet_dictSet_self _ _ _
    | yint n0 => exact dictGet_dictSet_self _ _ _
    | ybool b0 => exact dictGet_dictSet_self _ _ _
    | ylist l0 => simp [YVal.isYList] at hne
    | ynull => exact dictGet_dictSet_self _ _ _

/-- C5 witness for the amended claim: a document supplying the scalar 3
for ignored_modules resolves to the built-in default list. -/
theorem C5_ignored_modules_amended_witness :
    dictGet (load_config (.doc (some [("ignored_modules", .yint 3)])))
        "ignored_modules" = some (.ylist default_ignored) :=
  C5_ignored_modules_amended.2 [("ignored_modules", .yint 3)] (.yint 3)
    (by decide) rfl rfl

/-- Casting an integer to the rationals floors to itself. -/
theorem qfloor_intCast (n : ℤ) : qfloor (n : ℚ) = n := by
  unfold qfloor
  rw [Rat.num_intCast, Rat.den_intCast]
  simp only [Nat.cast_one]
  exact Int.ediv_one n

/-- Half-even rounding is the identity on integers. -/
theorem roundHalfEven_intCast (n : ℤ) : roundHalfEven (n : ℚ) = n := by
  unfold roundHalfEven
  rw [qfloor_intCast]
  norm_num

/-- Any whole number of microseconds, positive or negative, passes
through round(x, 6) unchanged: negative CPU deltas are not clamped. -/
theorem pyRound6_div_million (n : ℤ) :
    pyRound6 ((n : ℚ) / 1000000) = (n : ℚ) / 1000000 := by
  unfold pyRound6
  rw [div_mul_cancel₀ _ (by norm_num : (1000000 : ℚ) ≠ 0),
    roundHalfEven_intCast]

/-- A negative quantity is rendered with a leading minus sign:
negative memory deltas keep their sign in the formatted string. -/
theorem fmt2_neg_sign (q : ℚ) (hq : q < 0) : ∃ t, fmt2 q = "-" ++ t := by
  refine ⟨toString ((roundHalfEven (|q| * 100)).toNat / 100) ++ "." ++
    (if (roundHalfEven (|q| * 100)).toNat % 100 < 10 then "0" else "") ++
    toString ((roundHalfEven (|q| * 100)).toNat % 100), ?_⟩
  unfold fmt2
  rw [if_pos hq]
  simp [String.append_assoc]

/-- C8: the completed record's cpu_usage is the end-minus-start CPU
time rounded to 6 decimal places, memory_usage is the byte delta over
1 MiB rendered with two decimals and the MB suffix, io_operations is
the read-count delta plus the write-count delta; deltas are signed
differences with no clamping: whole microsecond deltas (also negative
ones) survive the rounding exactly, a negative memory delta keeps its
minus sign in the rendering, and the I/O delta is an exact
antisymmetric integer difference. -/
theorem C8_resource_deltas_confirmed :
    (∀ (rv : Bool) (data : ActiveCallData) (arg : Value) (env : ExitSample)
        (c : CallRecord),
      (retUpdate rv data arg env c).cpu_usage =
          some (pyRound6 (env.cpu - data.cpu_start)) ∧
      (retUpdate rv data arg env c).memory_usage =
          some (fmt2 (((env.mem - data.mem_start : ℤ) : ℚ) / (1024 * 1024)) ++ "MB") ∧
      (retUpdate rv data arg env c).io_operations =
          some ((env.io_snap.read_count - data.io_start.read_count) +
            (env.io_snap.write_count - data.io_start.write_count))) ∧
    (∀ n : ℤ, pyRound6 ((n : ℚ) / 1000000) = (n : ℚ) / 1000000) ∧
    (∀ q : ℚ, q < 0 → ∃ t, fmt2 q = "-" ++ t) ∧
    (∀ st en : IOCounters,
      (en.read_count - st.read_count) + (en.write_count - st.write_count) =
        -((st.read_count - en.read_count) + (st.write_count - en.write_count))) := by
  refine ⟨?_, pyRound6_div_million, fmt2_neg_sign, ?_⟩
  · intro rv data arg env c
    refine ⟨rfl, rfl, ?_⟩
    show some (env.io_snap.read_count - data.io_start.read_count
      + env.io_snap.write_count - data.io_start.write_count) = _
    congr 1
    ring
  · intro st en
    ring

/-- C8 witness: the negative-sign clause applied at the concrete
negative delta of minus three halves of a megabyte. -/
theorem C8_resource_deltas_witness :
    ∃ t, fmt2 (-(3 : ℚ) / 2) = "-" ++ t :=
  C8_resource_deltas_confirmed.2.2.1 (-(3 : ℚ) / 2) (by norm_num)

/-- C9 counterexample: enable, trace one call, disable, enable again -
the context opened for f before the disable is still in the
active-call table after the subsequent enable. -/
theorem C9_reenable_counterexample :
    C9state.active_calls.map Prod.fst = ["f"] ∧
    C9state.active_calls ≠ [] ∧
    C9state.profiling = true := by
  refine ⟨rfl, ?_, rfl⟩
  intro h
  have h1 : C9state.active_calls.map Prod.fst = ["f"] := rfl
  rw [h] at h1
  exact List.noConfusion h1

/-- C9 (amended): the active-call table is empty only at construction;
neither start_sniffing nor stop_sniffing touches it, so any context
open at a disable is still present after a subsequent enable of the
same tracer instance. -/
theorem C9_reenable_amended :
    (∀ (s : SniffState) (src : ConfigSource),
        (start_sniffing s src).active_calls = s.active_calls) ∧
    (∀ s : SniffState, (stop_sniffing s).active_calls = s.active_calls) ∧
    initState.active_calls = [] :=
  ⟨start_sniffing_active, stop_sniffing_active, rfl⟩

/-- C10: a failure completion changes only execution_time, cpu_usage,
memory_usage, io_operations, success and error_message on the record
it completes, and in every reachable state every record with
success = false has a null return_value. -/
theorem C10_failure_frame_confirmed :
    (∀ (data : ActiveCallData) (msg : String) (now : ℚ) (c : CallRecord),
      (excUpdate data msg now c).function = c.function ∧
      (excUpdate data msg now c).entry_args = c.entry_args ∧
      (excUpdate data msg now c).return_value = c.return_value ∧
      (excUpdate data msg now c).timestamp = c.timestamp ∧
      (excUpdate data msg now c).call_stack = c.call_stack ∧
      (excUpdate data msg now c).called_by = c.called_by ∧
      (excUpdate data msg now c).calls_made = c.calls_made) ∧
    (∀ (acts : List Action) (s' : SniffState),
      runActs initState acts = .ok s' →
      ∀ r ∈ s'.snifferpy_calls, r.success = some false →
        r.return_value = Option.none) := by
  constructor
  · intro data msg now c
    exact ⟨rfl, rfl, rfl, rfl, rfl, rfl, rfl⟩
  · intro acts s' hrun r hr hsucc
    have key := runActs_preserves
      (fun s => ∀ r ∈ s.snifferpy_calls,
        (r.execution_time = Option.none → r.return_value = Option.none) ∧
        (r.success = some false → r.return_value = Option.none))
      (fun s a s1 hP h => stepAct_records_pres _
        (fun _ _ _ => ⟨fun _ => rfl, fun _ => rfl⟩)
        (fun rv data arg env c hQ hpend =>
          ⟨fun h1 => by simp [retUpdate] at h1,
           fun h2 => by simp [retUpdate] at h2⟩)
        (fun data msg now c hQ hpend =>
          ⟨fun h1 => by simp [excUpdate] at h1,
           fun _ => hQ.1 hpend⟩)
        s a s1 hP h)
      acts initState s' (fun r hr => absurd hr (List.not_mem_nil r)) hrun
    exact (key r hr).2 hsucc

/-- C10 witness: in the concrete failing run the failed record indeed
keeps a null return_value. -/
theorem C10_failure_frame_witness :
    (C10state.snifferpy_calls.getD 0 blankRecord).return_value = Option.none :=
  C10_failure_frame_confirmed.2 C10acts C10state rfl
    (C10state.snifferpy_calls.getD 0 blankRecord)
    (List.mem_cons_self _ _) rfl

/-- C1 counterexample: in the subtract/divide/add scenario run the
tracer never appends anything to any calls_made sequence; subtract's
record ends with calls_made = [], not the claimed list. -/
theorem C1_calls_made_counterexample :
    C1state.snifferpy_calls.map (fun r => r.function) =
        ["subtract", "divide", "add"] ∧
    (C1state.snifferpy_calls.getD 0 blankRecord).calls_made = [] ∧
    ¬((C1state.snifferpy_calls.getD 0 blankRecord).calls_made =
        ["divide", "add"]) := by
  refine ⟨rfl, rfl, ?_⟩
  intro h
  exact List.noConfusion (h.symm.trans rfl)

/-- C1 (amended): calls_made is created empty and never modified - no
entry event appends to a caller's open context and no completion
copies anything - so every record and every open context of every run
has calls_made = []; in the scenario run the called_by edges are still
recorded: divide's and add's records have called_by = "subtract". -/
theorem C1_calls_made_amended :
    (∀ (acts : List Action) (s' : SniffState),
        runActs initState acts = .ok s' →
        ∀ r ∈ s'.snifferpy_calls, r.calls_made = []) ∧
    (∀ (acts : List Action) (s' : SniffState),
        runActs initState acts = .ok s' →
        ∀ p ∈ s'.active_calls, (Prod.snd p).calls_made = []) ∧
    C1state.snifferpy_calls.map (fun r => (r.function, r.called_by, r.calls_made)) =
      [("subtract", "<module>", []), ("divide", "subtract", []),
       ("add", "subtract", [])] := by
  refine ⟨?_, ?_, rfl⟩
  · intro acts s' hrun
    exact runActs_preserves (fun s => ∀ r ∈ s.snifferpy_calls, r.calls_made = [])
      (fun s a s1 hP h => stepAct_records_pres (fun r => r.calls_made = [])
        (fun _ _ _ => rfl)
        (fun rv data arg env c hQ _ => by simpa using hQ)
        (fun data msg now c hQ _ => by simpa using hQ) s a s1 hP h)
      acts initState s' (fun r hr => absurd hr (List.not_mem_nil r)) hrun
  · intro acts s' hrun
    exact runActs_preserves
      (fun s => ∀ p ∈ s.active_calls, (Prod.snd p).calls_made = [])
      (fun s a s1 hA h => stepAct_active_pres (fun d => d.calls_made = [])
        (fun _ _ => rfl) s a s1 hA h)
      acts initState s' (fun p hp => absurd hp (List.not_mem_nil p)) hrun

/-- C1 witness for the amended claim: divide's record in the scenario
run has an empty calls_made. -/
theorem C1_calls_made_amended_witness :
    (C1state.snifferpy_calls.getD 1 blankRecord).calls_made = [] :=
  C1_calls_made_amended.1 C1acts C1state rfl
    (C1state.snifferpy_calls.getD 1 blankRecord)
    (List.mem_cons_of_mem _ (List.mem_cons_self _ _))

/-- C2 counterexample: at a concrete entry event the recorded
call_stack is the raw introspected stack minus only the introspector
frame: it still contains the interception layer's frame
"profile_function", and it matches neither the specified ancestor
sequence (oldest first, both tracer frames excluded) nor its variant
that also drops the entered call's own frame. -/
theorem C2_call_stack_counterexample :
    (sEntry.snifferpy_calls.getD 0 blankRecord).call_stack =
        ["profile_function", "f", "<module>"] ∧
    "profile_function" ∈ (sEntry.snifferpy_calls.getD 0 blankRecord).call_stack ∧
    (sEntry.snifferpy_calls.getD 0 blankRecord).call_stack ≠ specCallStack raw4 ∧
    (sEntry.snifferpy_calls.getD 0 blankRecord).call_stack ≠
      (raw4.drop 3).reverse := by
  refine ⟨rfl, ?_, by decide, by decide⟩
  have h : (sEntry.snifferpy_calls.getD 0 blankRecord).call_stack =
      ["profile_function", "f", "<module>"] := rfl
  rw [h]
  exact List.mem_cons_self _ _

/-- C2 (amended): for every entry event the record's call_stack is the
introspected raw stack with only the introspector's own frame dropped:
the interception layer's frame comes first, then the program frames
most-recent-first (the entered call itself first, the outermost call
last). -/
theorem C2_call_stack_amended (s : SniffState) (fname : String)
    (parts : List String) (lv : Option (List (String × Value)))
    (env : EntrySample) (a : ArgsVal)
    (hen : cfgFlag s.config "enable" true = true)
    (hig : is_ignored_module s.config parts = false)
    (ha : get_args_dict lv (cfgFlag s.config "entry_value" false) = .ok a) :
    ((stepOr s (.callEv fname parts lv env)).snifferpy_calls.getLastD
        blankRecord).call_stack = env.rawStack.drop 1 := by
  unfold stepOr
  rw [entry_step s fname parts lv env a hen hig ha]
  dsimp only [Except.toOption, Option.getD]
  rw [List.getLastD_concat]
  rfl

/-- C2 witness for the amended claim, at a concrete entry event. -/
theorem C2_call_stack_amended_witness :
    ((stepOr (start_sniffing initState ConfigSource.noFile)
        (.callEv "f" ["__main__"] (some []) (demoEnv raw4))).snifferpy_calls.getLastD
        blankRecord).call_stack = (demoEnv raw4).rawStack.drop 1 :=
  C2_call_stack_amended _ "f" ["__main__"] (some []) (demoEnv raw4)
    (.argsDict []) rfl (by decide) rfl

/-- C3: on a failure event with an open context the tracer removes the
context and completes the first pending record with the matching name,
setting execution_time to the elapsed time, leaving the three resource
fields null, setting success = false and error_message to the
failure's textual description, all other records untouched; with no
open context the failure event is a no-op. -/
theorem C3_failure_event_confirmed (s : SniffState) (fname msg : String)
    (now : ℚ) :
    (dictGet s.active_calls fname = Option.none →
      profile_function s (.excEv fname msg now) = .ok s) ∧
    (∀ data : ActiveCallData,
      dictGet s.active_calls fname = some data →
      cfgFlag s.config "enable" true = true →
      (stepOr s (.excEv fname msg now)).active_calls =
          dictPop s.active_calls fname ∧
      (((∀ c ∈ s.snifferpy_calls,
            ¬(c.function = fname ∧ c.execution_time = Option.none)) ∧
          (stepOr s (.excEv fname msg now)).snifferpy_calls =
            s.snifferpy_calls) ∨
        (∃ l₁ c l₂, s.snifferpy_calls = l₁ ++ c :: l₂ ∧
          (∀ c' ∈ l₁, ¬(c'.function = fname ∧ c'.execution_time = Option.none)) ∧
          c.function = fname ∧ c.execution_time = Option.none ∧
          (stepOr s (.excEv fname msg now)).snifferpy_calls =
            l₁ ++ { c with
              execution_time := some (now - data.start_time),
              cpu_usage := Option.none,
              memory_usage := Option.none,
              io_operations := Option.none,
              success := some false,
              error_message := some msg } :: l₂))) := by
  constructor
  · exact exc_noop s fname msg now
  · intro data hget hen
    have hs : stepOr s (.excEv fname msg now) =
        { s with active_calls := dictPop s.active_calls fname,
                 snifferpy_calls := completeFirst s.snifferpy_calls fname
                   (excUpdate data msg now) } := by
      unfold stepOr
      rw [exc_step s fname msg now data hen hget]
      rfl
    rw [hs]
    refine ⟨rfl, ?_⟩
    rcases completeFirst_cases s.snifferpy_calls fname (excUpdate data msg now)
      with ⟨hall, heq⟩ | ⟨l₁, c, l₂, hsplit, hnone, hf, hexec, hres⟩
    · exact Or.inl ⟨hall, heq⟩
    · exact Or.inr ⟨l₁, c, l₂, hsplit, hnone, hf, hexec, hres⟩

/-- C3 witness: the failure completion applied at a concrete state
with an open context for f. -/
theorem C3_failure_event_witness :
    (stepOr sEntry (.excEv "f" "boom" 2)).active_calls =
      dictPop sEntry.active_calls "f" :=
  ((C3_failure_event_confirmed sEntry "f" "boom" 2).2 dataEntry rfl rfl).1

/-- C4: on a normal return with an open context the tracer removes the
context and completes exactly the first pending record with the
matching name, with return_value the value itself when the
return_value flag is set and the value's type name otherwise,
execution_time the elapsed time, the three resource deltas,
success = true and error_message = null, all other records untouched;
with no open context the exit event is a state no-op. -/
theorem C4_exit_event_confirmed (s : SniffState) (fname : String)
    (arg : Value) (env : ExitSample) :
    (dictGet s.active_calls fname = Option.none →
      profile_function s (.retEv fname arg env) = .ok s) ∧
    (∀ data : ActiveCallData,
      dictGet s.active_calls fname = some data →
      cfgFlag s.config "enable" true = true →
      (stepOr s (.retEv fname arg env)).active_calls =
          dictPop s.active_calls fname ∧
      (((∀ c ∈ s.snifferpy_calls,
            ¬(c.function = fname ∧ c.execution_time = Option.none)) ∧
          (stepOr s (.retEv fname arg env)).snifferpy_calls =
            s.snifferpy_calls) ∨
        (∃ l₁ c l₂, s.snifferpy_calls = l₁ ++ c :: l₂ ∧
          (∀ c' ∈ l₁, ¬(c'.function = fname ∧ c'.execution_time = Option.none)) ∧
          c.function = fname ∧ c.execution_time = Option.none ∧
          (stepOr s (.retEv fname arg env)).snifferpy_calls =
            l₁ ++ { c with
              return_value := some (if cfgFlag s.config "return_value" false
                then arg else Value.strV arg.typeName),
              execution_time := some (env.now - data.start_time),
              cpu_usage := some (pyRound6 (env.cpu - data.cpu_start)),
              memory_usage := some (fmtMB (env.mem - data.mem_start)),
              io_operations := some (env.io_snap.read_count
                - data.io_start.read_count + env.io_snap.write_count
                - data.io_start.write_count),
              success := some true,
              error_message := Option.none } :: l₂))) := by
  constructor
  · exact ret_noop s fname arg env
  · intro data hget hen
    have hs : stepOr s (.retEv fname arg env) =
        { s with active_calls := dictPop s.active_calls fname,
                 snifferpy_calls := completeFirst s.snifferpy_calls fname
                   (retUpdate (cfgFlag s.config "return_value" false)
                     data arg env) } := by
      unfold stepOr
      rw [ret_step s fname arg env data hen hget]
      rfl
    rw [hs]
    refine ⟨rfl, ?_⟩
    rcases completeFirst_cases s.snifferpy_calls fname
        (retUpdate (cfgFlag s.config "return_value" false) data arg env)
      with ⟨hall, heq⟩ | ⟨l₁, c, l₂, hsplit, hnone, hf, hexec, hres⟩
    · exact Or.inl ⟨hall, heq⟩
    · exact Or.inr ⟨l₁, c, l₂, hsplit, hnone, hf, hexec, hres⟩

/-- C4 witness: the exit completion applied at a concrete state with
an open context for f. -/
theorem C4_exit_event_witness :
    (stepOr sEntry (.retEv "f" (.intV 3) demoExit)).active_calls =
      dictPop sEntry.active_calls "f" :=
  ((C4_exit_event_confirmed sEntry "f" (.intV 3) demoExit).2 dataEntry rfl rfl).1

/-- C6 counterexample: with the default configuration (entry_value
false) a call whose local variables cannot be read makes the
interception callback itself raise - the type-name rewrite is applied
to the sentinel string - instead of recording the sentinel and
continuing, so the claim fails for the entry_value = false setting. -/
theorem C6_args_capture_counterexample :
    profile_function (start_sniffing initState ConfigSource.noFile)
        (.callEv "f" ["__main__"] Option.none (demoEnv raw4)) =
      .error "AttributeError: str has no attribute items" := rfl

/-- C6 (amended): when a call's local variables cannot be read, the
sentinel placeholder is recorded as entry_args and tracing continues
only when entry_value is true; when entry_value is false (the
default), the callback itself raises. -/
theorem C6_args_capture_amended (s : SniffState) (fname : String)
    (parts : List String) (env : EntrySample)
    (hen : cfgFlag s.config "enable" true = true)
    (hig : is_ignored_module s.config parts = false) :
    (cfgFlag s.config "entry_value" false = true →
      profile_function s (.callEv fname parts Option.none env) =
        .ok { s with
          snifferpy_calls := s.snifferpy_calls ++
            [entryRecord fname (.argsStr unknownArgs) env],
          active_calls := dictSet s.active_calls fname
            (entryCtx (.argsStr unknownArgs) env) }) ∧
    (cfgFlag s.config "entry_value" false = false →
      profile_function s (.callEv fname parts Option.none env) =
        .error "AttributeError: str has no attribute items") := by
  constructor
  · intro hev
    apply entry_step s fname parts Option.none env (.argsStr unknownArgs) hen hig
    rw [hev]
    rfl
  · intro hev
    apply entry_raises s fname parts Option.none env _ hen hig
    rw [hev]
    rfl

/-- C6 witness for the amended claim: with entry_value turned on in
the settings document, unreadable locals produce the sentinel record
and the callback returns normally. -/
theorem C6_args_capture_amended_witness :
    profile_function sEntryValueOn
        (.callEv "g" ["__main__"] Option.none (demoEnv raw4)) =
      .ok { sEntryValueOn with
        snifferpy_calls := sEntryValueOn.snifferpy_calls ++
          [entryRecord "g" (.argsStr unknownArgs) (demoEnv raw4)],
        active_calls := dictSet sEntryValueOn.active_calls "g"
          (entryCtx (.argsStr unknownArgs) (demoEnv raw4)) } :=
  (C6_args_capture_amended sEntryValueOn "g" ["__main__"] (demoEnv raw4)
    rfl (by decide)).1 rfl

/-- C7: called_by is computed from the introspected stack with the
introspector's own frame excluded, by the specified rule: the
second-from-top entry when that stack has more than 3 entries and the
top entry otherwise, where the top is the last element under the
spec's innermost-last storage convention. -/
theorem C7_called_by_confirmed :
    (∀ cs : List String, called_by_of cs = specCalledBy cs) ∧
    (∀ (s : SniffState) (fname : String) (parts : List String)
        (lv : Option (List (String × Value))) (env : EntrySample) (a : ArgsVal),
      cfgFlag s.config "enable" true = true →
      is_ignored_module s.config parts = false →
      get_args_dict lv (cfgFlag s.config "entry_value" false) = .ok a →
      ((stepOr s (.callEv fname parts lv env)).snifferpy_calls.getLastD
          blankRecord).called_by = specCalledBy (env.rawStack.drop 1)) := by
  constructor
  · exact called_by_of_eq_spec
  · intro s fname parts lv env a hen hig ha
    unfold stepOr
    rw [entry_step s fname parts lv env a hen hig ha]
    dsimp only [Except.toOption, Option.getD]
    rw [List.getLastD_concat]
    exact called_by_of_eq_spec _

/-- C7 witness: at the concrete entry of divide (called by subtract at
module level) the recorded called_by is subtract. -/
theorem C7_called_by_witness :
    ((stepOr (start_sniffing initState ConfigSource.noFile)
        (.callEv "divide" ["__main__"] (some []) (demoEnv rawDivide))).snifferpy_calls.getLastD
        blankRecord).called_by = "subtract" :=
  (C7_called_by_confirmed.2 (start_sniffing initState ConfigSource.noFile)
    "divide" ["__main__"] (some [])
    (demoEnv rawDivide) (.argsDict []) rfl (by decide) rfl).trans (by decide)

end SnifferPy
